import Mathlib

/-!
Verification of the GPU admission queue, model-residency manager and
capability oracle of the `picscaption` AI server.

The models below are shallow embeddings of `src/ai3/services/queue.py`,
`src/ai3/services/generator.py`, `src/ai3/services/capabilities.py`,
`src/ai3/services/upscaler.py` and `src/ai3/services/captioner.py`.
Asyncio state (the worker coroutine, futures, the FIFO queue) is made
explicit as a small-step machine whose actions correspond to the await
points of the Python code; pure policy code (capability tiering, the
require checks) is embedded as pure functions.
-/

inductive Device
  | cuda
  | cpu
deriving DecidableEq, Repr

namespace GPUQueue

/-- The outcome a task body produces when the worker awaits it:
`await task()` either returns a result or raises an exception
(`queue.py` lines 38-42). Results and exceptions are opaque payloads. -/
inductive Outcome
  | ok (v : Nat)
  | err (e : Nat)
deriving DecidableEq, Repr

/-- A submitted task: an identifier (standing for the closure object) and
the outcome its body produces when executed. -/
structure Task where
  id : Nat
  outcome : Outcome
deriving DecidableEq, Repr

/-- The state of the one-shot `asyncio.Future` created per submission
(`queue.py` line 56). `unresolved` is a future nobody has completed. -/
inductive FutureState
  | unresolved
  | resolvedOk (v : Nat)
  | resolvedErr (e : Nat)
  | resolvedCancelled
deriving DecidableEq, Repr

/-- The worker coroutine's position at its await points:
suspended in `await self._queue.get()` (line 37), suspended in
`await task()` for a dequeued task (line 39), or cancelled/terminated. -/
inductive WorkerPC
  | awaitingGet
  | runningTask (t : Task)
  | dead
deriving DecidableEq, Repr

/-- Global state of the `GPUQueue` world: the FIFO `asyncio.Queue`
contents, the worker position, the multiset of task bodies currently in
flight (the entry/exit instrumentation the spec asks for), the futures of
all submissions in submission order, and the ids of tasks in the order
the worker dequeued them. -/
structure QState where
  queue : List Task
  pc : WorkerPC
  executing : List Nat
  futures : List (Nat × FutureState)
  began : List Nat
deriving DecidableEq, Repr

/-- State right after `start()`: empty queue, worker suspended at
`queue.get()`, nothing in flight. -/
def initState : QState := ⟨[], .awaitingGet, [], [], []⟩

/-- How the worker resolves a future from the task body's outcome:
`future.set_result(result)` on line 40, `future.set_exception(e)` on
line 42. -/
def outcomeFuture : Outcome → FutureState
  | .ok v => .resolvedOk v
  | .err e => .resolvedErr e

/-- Complete the (first) future registered under id `j`. Each submission
registers a fresh future object, so with distinct ids this models
`future.set_result` / `future.set_exception` on that task's own future. -/
def setFuture : List (Nat × FutureState) → Nat → FutureState → List (Nat × FutureState)
  | [], _, _ => []
  | (i, f) :: rest, j, g =>
      if i = j then (i, g) :: rest else (i, f) :: setFuture rest j g

/-- Scheduler actions, one per transition the Python code can make at an
await point:
* `submit t` — a submitter runs `submit`: creates a future and
  `await self._queue.put((task, future))` (lines 54-57);
* `deq` — the worker's `await self._queue.get()` returns, after which the
  worker synchronously enters `await task()` (lines 37-39);
* `fin` — the awaited task body finishes; the worker synchronously sets
  the future (success or exception, lines 40-42) and runs the `finally`
  cache-clearing block, returning to `queue.get()`;
* `stop` — `stop()` cancels the worker task (lines 26-31): the
  `CancelledError` is delivered at the worker's current await point; it is
  not an `Exception`, so the `except Exception` clause does not catch it
  and no future is completed. -/
inductive Action
  | submit (t : Task)
  | deq
  | fin
  | stop
deriving DecidableEq, Repr

/-- One step of the queue world. -/
def step (s : QState) : Action → QState
  | .submit t =>
      { s with queue := s.queue ++ [t],
               futures := s.futures ++ [(t.id, .unresolved)] }
  | .deq =>
      match s.pc, s.queue with
      | .awaitingGet, t :: rest =>
          { s with queue := rest,
                   pc := .runningTask t,
                   executing := s.executing ++ [t.id],
                   began := s.began ++ [t.id] }
      | _, _ => s
  | .fin =>
      match s.pc with
      | .runningTask t =>
          { s with pc := .awaitingGet,
                   executing := s.executing.filter (fun i => i ≠ t.id),
                   futures := setFuture s.futures t.id (outcomeFuture t.outcome) }
      | _ => s
  | .stop =>
      match s.pc with
      | .runningTask t =>
          { s with pc := .dead,
                   executing := s.executing.filter (fun i => i ≠ t.id) }
      | _ => { s with pc := .dead }

/-- Run a list of scheduler actions. -/
def run (s : QState) : List Action → QState
  | [] => s
  | a :: rest => run (step s a) rest

/-- The entry/exit instrumentation invariant: the set of task bodies in
flight is empty unless the worker is parked inside `await task()`, in
which case it is exactly that one task. -/
def execInv (s : QState) : Prop :=
  match s.pc with
  | .runningTask t => s.executing = [t.id]
  | _ => s.executing = []

theorem step_execInv (s : QState) (a : Action) (h : execInv s) : execInv (step s a) := by
  cases a with
  | submit t =>
      cases hpc : s.pc <;> simp_all [execInv, step]
  | deq =>
      cases hpc : s.pc with
      | awaitingGet =>
          cases hq : s.queue with
          | nil => simp_all [execInv, step]
          | cons t rest => simp_all [execInv, step]
      | runningTask t => simp_all [execInv, step]
      | dead => simp_all [execInv, step]
  | fin =>
      cases hpc : s.pc with
      | awaitingGet => simp_all [execInv, step]
      | runningTask t => simp_all [execInv, step, List.filter]
      | dead => simp_all [execInv, step]
  | stop =>
      cases hpc : s.pc with
      | awaitingGet => simp_all [execInv, step]
      | runningTask t => simp_all [execInv, step, List.filter]
      | dead => simp_all [execInv, step]

theorem run_execInv (as : List Action) (s : QState) (h : execInv s) : execInv (run s as) := by
  induction as generalizing s with
  | nil => exact h
  | cons a rest ih => exact ih (step s a) (step_execInv s a h)

theorem initState_execInv : execInv initState := by
  simp [execInv, initState]

/-- Ids of the tasks submitted by an action list, in submission order. -/
def submittedIds : List Action → List Nat
  | [] => []
  | .submit t :: rest => t.id :: submittedIds rest
  | _ :: rest => submittedIds rest

theorem step_began_queue (s : QState) (a : Action) :
    (step s a).began ++ (step s a).queue.map Task.id =
      (s.began ++ s.queue.map Task.id) ++ submittedIds [a] := by
  cases a with
  | submit t => simp [step, submittedIds]
  | deq =>
      cases hpc : s.pc with
      | awaitingGet =>
          cases hq : s.queue with
          | nil => simp [step, hpc, hq, submittedIds]
          | cons t rest => simp [step, hpc, hq, submittedIds]
      | runningTask t => simp [step, hpc, submittedIds]
      | dead => simp [step, hpc, submittedIds]
  | fin =>
      cases hpc : s.pc <;> simp [step, hpc, submittedIds]
  | stop =>
      cases hpc : s.pc <;> simp [step, hpc, submittedIds]

theorem run_began_queue (as : List Action) (s : QState) :
    (run s as).began ++ (run s as).queue.map Task.id =
      (s.began ++ s.queue.map Task.id) ++ submittedIds as := by
  induction as generalizing s with
  | nil => simp [run, submittedIds]
  | cons a rest ih =>
      have h1 := step_began_queue s a
      have h2 := ih (step s a)
      show (run (step s a) rest).began ++ (run (step s a) rest).queue.map Task.id = _
      rw [h2, h1]
      cases a <;> simp [submittedIds]

theorem run_append (as bs : List Action) (s : QState) :
    run s (as ++ bs) = run (run s as) bs := by
  induction as generalizing s with
  | nil => simp [run]
  | cons a rest ih => simp [run, ih]

/-- Effect of a batch of `submit` calls: each appends its task to the FIFO
queue and registers a fresh unresolved future, touching nothing else. -/
theorem run_submits (ts : List Task) (s : QState) :
    run s (ts.map Action.submit) =
      { s with queue := s.queue ++ ts,
               futures := s.futures ++ ts.map (fun t => (t.id, FutureState.unresolved)) } := by
  induction ts generalizing s with
  | nil => cases s; simp [run]
  | cons t rest ih =>
      show run (step s (.submit t)) (rest.map Action.submit) = _
      rw [ih]
      simp [step]

/-- The schedule in which the worker dequeues and fully executes each
queued task, one after the other: the only schedule the single worker
loop of `_worker` can produce once tasks are queued. -/
def drainActions : List Task → List Action
  | [] => []
  | _ :: rest => Action.deq :: Action.fin :: drainActions rest

theorem setFuture_append_of_notMem (pre l : List (Nat × FutureState)) (j : Nat)
    (g : FutureState) (h : ∀ p ∈ pre, p.1 ≠ j) :
    setFuture (pre ++ l) j g = pre ++ setFuture l j g := by
  induction pre with
  | nil => simp
  | cons p rest ih =>
      have hp : p.1 ≠ j := h p (by simp)
      have hrest := ih (fun q hq => h q (by simp [hq]))
      cases p with
      | mk i f =>
          simp only [List.cons_append, setFuture, List.append_eq]
          rw [if_neg hp, hrest]

/-- Draining preserves the shape facts that do not depend on future ids:
the queue empties, the worker returns to `queue.get()`, nothing stays in
flight, and the dequeue order extends by exactly the queued tasks in FIFO
order. -/
theorem run_drain_shape (ts : List Task) (s : QState)
    (hpc : s.pc = .awaitingGet) (hq : s.queue = ts) (hex : s.executing = []) :
    (run s (drainActions ts)).queue = [] ∧
    (run s (drainActions ts)).pc = .awaitingGet ∧
    (run s (drainActions ts)).executing = [] ∧
    (run s (drainActions ts)).began = s.began ++ ts.map Task.id := by
  induction ts generalizing s with
  | nil => simp [drainActions, run, hq, hpc, hex]
  | cons t rest ih =>
      show (run (step (step s .deq) .fin) (drainActions rest)).queue = [] ∧
        (run (step (step s .deq) .fin) (drainActions rest)).pc = .awaitingGet ∧
        (run (step (step s .deq) .fin) (drainActions rest)).executing = [] ∧
        (run (step (step s .deq) .fin) (drainActions rest)).began =
          s.began ++ (t :: rest).map Task.id
      have h1 : step s .deq =
          { s with queue := rest, pc := .runningTask t,
                   executing := s.executing ++ [t.id], began := s.began ++ [t.id] } := by
        simp [step, hpc, hq]
      have h2 : step (step s .deq) .fin =
          { s with queue := rest, pc := .awaitingGet,
                   executing := (s.executing ++ [t.id]).filter (fun i => i ≠ t.id),
                   began := s.began ++ [t.id],
                   futures := setFuture s.futures t.id (outcomeFuture t.outcome) } := by
        rw [h1]; simp [step]
      have hrec := ih (step (step s .deq) .fin) (by rw [h2]) (by rw [h2])
        (by rw [h2]; simp [hex])
      refine ⟨hrec.1, hrec.2.1, hrec.2.2.1, ?_⟩
      rw [hrec.2.2.2, h2]
      simp

/-- Draining resolves every queued task's own future with that task's own
outcome, leaving earlier futures untouched (ids distinct: each submission
owns a fresh future object). -/
theorem run_drain_futures (ts : List Task) (s : QState) (pre : List (Nat × FutureState))
    (hpc : s.pc = .awaitingGet) (hq : s.queue = ts) (hex : s.executing = [])
    (hf : s.futures = pre ++ ts.map (fun t => (t.id, FutureState.unresolved)))
    (hdisj : ∀ t ∈ ts, ∀ p ∈ pre, p.1 ≠ t.id)
    (hnd : (ts.map Task.id).Nodup) :
    (run s (drainActions ts)).futures =
      pre ++ ts.map (fun t => (t.id, outcomeFuture t.outcome)) := by
  induction ts generalizing s pre with
  | nil => simp [drainActions, run, hf]
  | cons t rest ih =>
      show (run (step (step s .deq) .fin) (drainActions rest)).futures = _
      have h1 : step s .deq =
          { s with queue := rest, pc := .runningTask t,
                   executing := s.executing ++ [t.id], began := s.began ++ [t.id] } := by
        simp [step, hpc, hq]
      have hresolved : setFuture s.futures t.id (outcomeFuture t.outcome) =
          (pre ++ [(t.id, outcomeFuture t.outcome)]) ++
            rest.map (fun u => (u.id, FutureState.unresolved)) := by
        rw [hf]
        simp only [List.map_cons, List.append_assoc]
        rw [setFuture_append_of_notMem _ _ _ _ (fun p hp => hdisj t (by simp) p hp)]
        simp [setFuture]
      have h2 : step (step s .deq) .fin =
          { s with queue := rest, pc := .awaitingGet,
                   executing := (s.executing ++ [t.id]).filter (fun i => i ≠ t.id),
                   began := s.began ++ [t.id],
                   futures := setFuture s.futures t.id (outcomeFuture t.outcome) } := by
        rw [h1]; simp [step]
      have hrec := ih (step (step s .deq) .fin) (pre ++ [(t.id, outcomeFuture t.outcome)])
        (by rw [h2]) (by rw [h2]) (by rw [h2]; simp [hex])
        (by rw [h2]; simpa using hresolved)
        (by
          intro u hu p hp
          have hnd' : (∀ x ∈ rest, ¬ x.id = t.id) ∧ (List.map Task.id rest).Nodup := by
            simpa using hnd
          rcases List.mem_append.mp hp with hp' | hp'
          · exact hdisj u (by simp [hu]) p hp'
          · have hpeq : p = (t.id, outcomeFuture t.outcome) := by simpa using hp'
            subst hpeq
            exact fun hc => hnd'.1 u hu (by simpa using hc.symm))
        (by
          have hnd' : (∀ x ∈ rest, ¬ x.id = t.id) ∧ (List.map Task.id rest).Nodup := by
            simpa using hnd
          exact hnd'.2)
      rw [hrec]
      simp

/-- Submit every task of `ts` in order, then let the single worker process
the whole queue: the canonical complete execution of the queue. -/
def processAll (ts : List Task) : QState :=
  run initState (ts.map Action.submit ++ drainActions ts)


/-- C1: at every instant, at most one submitted task is executing. Over
every interleaving of submissions, worker steps and cancellation, the
entry/exit instrumentation of task bodies never records more than one
task in flight: the single worker of `GPUQueue._worker` fully awaits each
dequeued task before dequeuing the next. -/
theorem c1_at_most_one_task_executing (as : List Action) :
    ((run initState as).executing).length ≤ 1 := by
  have h := run_execInv as initState initState_execInv
  unfold execInv at h
  cases hpc : (run initState as).pc <;> rw [hpc] at h <;> simp [h]

/-- C3: the queue is strictly FIFO. Over every interleaving, the order in
which the worker dequeues tasks is a prefix of the submission order (no
reordering, priority, or skipping), and when the worker drains the whole
queue it begins the tasks in exactly submission order. -/
theorem c3_fifo_order (as : List Action) (ts : List Task) :
    (∃ rest, (run initState as).began ++ rest = submittedIds as) ∧
    (processAll ts).began = ts.map Task.id := by
  constructor
  · refine ⟨(run initState as).queue.map Task.id, ?_⟩
    have h := run_began_queue as initState
    simpa [initState] using h
  · unfold processAll
    rw [run_append]
    have h := run_drain_shape ts (run initState (ts.map Action.submit))
      (by rw [run_submits]; rfl) (by rw [run_submits]; simp [initState])
      (by rw [run_submits]; rfl)
    rw [h.2.2.2, run_submits]
    simp [initState]

/-- C4 fails as stated: submitting one task (id 1) and then stopping the
queue leaves that pending waiter's future unresolved — `GPUQueue.stop`
only cancels the worker task and never resolves queued futures, so the
waiter does not receive a cancellation error. -/
theorem c4_counterexample :
    (run initState [Action.submit ⟨1, Outcome.ok 0⟩, Action.stop]).futures
        = [(1, FutureState.unresolved)] ∧
    FutureState.unresolved ≠ FutureState.resolvedCancelled := by
  constructor
  · rfl
  · decide

/-- C4 amended: stopping the queue with pending tasks (and possibly one
in flight) kills the worker and leaves every waiter unresolved — no
waiter receives a cancellation error, none is resolved at all (hence also
none twice). -/
theorem c4_amended_stop_leaves_waiters_unresolved (ts : List Task) (t : Task) :
    ((run initState (ts.map Action.submit ++ [Action.stop])).futures
        = ts.map (fun u => (u.id, FutureState.unresolved)) ∧
     (run initState (ts.map Action.submit ++ [Action.stop])).pc = WorkerPC.dead) ∧
    ((run initState ((t :: ts).map Action.submit ++ [Action.deq, Action.stop])).futures
        = (t :: ts).map (fun u => (u.id, FutureState.unresolved)) ∧
     (run initState ((t :: ts).map Action.submit ++ [Action.deq, Action.stop])).pc
        = WorkerPC.dead) := by
  constructor
  · rw [run_append, run_submits]
    constructor
    · show (step _ .stop).futures = _
      simp [step, initState]
    · show (step _ .stop).pc = _
      simp [step, initState]
  · rw [run_append, run_submits]
    have hdeq : step { initState with
        queue := initState.queue ++ (t :: ts),
        futures := initState.futures ++ (t :: ts).map (fun u => (u.id, FutureState.unresolved)) }
          .deq =
        { queue := ts, pc := .runningTask t, executing := [t.id],
          futures := (t :: ts).map (fun u => (u.id, FutureState.unresolved)),
          began := [t.id] } := by
      simp [step, initState]
    constructor
    · show (step (step _ .deq) .stop).futures = _
      rw [hdeq]
      simp [step]
    · show (step (step _ .deq) .stop).pc = _
      rw [hdeq]
      simp [step]

/-- C5: a task whose body raises is contained — its exception is
delivered as the failure outcome of its own future only, the worker loop
does not terminate, and every subsequently queued task is dequeued and
executed, each resolving its own future with its own outcome. -/
theorem c5_failures_contained (ts : List Task) (hnd : (ts.map Task.id).Nodup) :
    (processAll ts).pc = WorkerPC.awaitingGet ∧
    (processAll ts).queue = [] ∧
    (processAll ts).futures = ts.map (fun t => (t.id, outcomeFuture t.outcome)) := by
  unfold processAll
  rw [run_append]
  have hshape := run_drain_shape ts (run initState (ts.map Action.submit))
    (by rw [run_submits]; rfl) (by rw [run_submits]; simp [initState])
    (by rw [run_submits]; rfl)
  have hfut := run_drain_futures ts (run initState (ts.map Action.submit)) []
    (by rw [run_submits]; rfl) (by rw [run_submits]; simp [initState])
    (by rw [run_submits]; rfl)
    (by rw [run_submits]; simp [initState]) (by simp) hnd
  exact ⟨hshape.2.1, hshape.1, by simpa using hfut⟩

/-- Witness for C5 at a concrete input: task 1 raises, task 2 succeeds;
the worker survives the failure, drains the queue, and each future holds
its own task's outcome. -/
theorem c5_failures_contained_witness :
    (([⟨1, Outcome.err 7⟩, ⟨2, Outcome.ok 3⟩] : List Task).map Task.id).Nodup ∧
    ((processAll [⟨1, Outcome.err 7⟩, ⟨2, Outcome.ok 3⟩]).pc = WorkerPC.awaitingGet ∧
     (processAll [⟨1, Outcome.err 7⟩, ⟨2, Outcome.ok 3⟩]).queue = [] ∧
     (processAll [⟨1, Outcome.err 7⟩, ⟨2, Outcome.ok 3⟩]).futures =
       ([⟨1, Outcome.err 7⟩, ⟨2, Outcome.ok 3⟩] : List Task).map
         (fun t => (t.id, outcomeFuture t.outcome))) :=
  ⟨by decide, c5_failures_contained [⟨1, Outcome.err 7⟩, ⟨2, Outcome.ok 3⟩] (by decide)⟩

end GPUQueue

namespace Generator

/-- Supported generation models (`ModelType` in `generator.py`). -/
inductive ModelType
  | sdxl
  | flux
  | flux2
  | zimageTurbo
deriving DecidableEq, Repr

/-- A diffusers pipeline handle as residency sees it: which model's
weights it holds and how far through the load it got (`.to(device)`
applied, `enable_model_cpu_offload` applied). -/
structure Pipe where
  model : ModelType
  onDevice : Bool
  offloadEnabled : Bool
deriving DecidableEq, Repr

/-- The `Generator` instance fields `_current_model`, `_pipe`, `_device`
(`generator.py` lines 28-32). The asyncio lock serializes `_ensure_model`
bodies, so a call is modeled as one atomic state transformation. -/
structure GenState where
  currentModel : Option ModelType
  pipe : Option Pipe
  device : Option Device
deriving DecidableEq, Repr

/-- `Generator.__init__`: nothing resident. -/
def genInit : GenState := ⟨none, none, none⟩

/-- Observable residency events: the teardown hook firing inside
`_unload_current` (with the model it logs), and the begin/end of a
`_load_*` call. -/
inductive GEvent
  | unloaded (m : Option ModelType)
  | loadStarted (m : ModelType)
  | loaded (m : ModelType)
deriving DecidableEq, Repr

/-- Failure injection for one load call: which fallible backend step
raises (`from_pretrained`, `.to(device)`, `enable_model_cpu_offload`). -/
structure LoadInj where
  failFromPretrained : Bool
  failTo : Bool
  failOffload : Bool
deriving DecidableEq, Repr

def noFail : LoadInj := ⟨false, false, false⟩

/-- `Generator._unload_current` (lines 34-51): if a pipe is held, delete
it, clear `_current_model`, run gc and clear the CUDA cache (the
teardown-observable event); if no pipe is held, do nothing — note it does
NOT clear `_current_model` in that case. -/
def unload_current (s : GenState) : GenState × List GEvent :=
  match s.pipe with
  | some _ => ({ s with pipe := none, currentModel := none }, [GEvent.unloaded s.currentModel])
  | none => (s, [])

/-- `Generator._ensure_device` (lines 53-56). -/
def ensure_device (s : GenState) (d : Device) : GenState :=
  match s.device with
  | none => { s with device := some d }
  | some _ => s

/-- Common body of the four `_load_*` methods (lines 58-131), which are
identical as far as residency state goes:
`self._pipe = Pipeline.from_pretrained(...)`,
`self._pipe = self._pipe.to(self._device)`, then on cuda
`self._pipe.enable_model_cpu_offload()`, and finally
`self._current_model = m`. Each backend step may raise; a raise
propagates with the instance fields left exactly as the completed
statements set them. -/
def load_pipeline (m : ModelType) (s : GenState) (inj : LoadInj) :
    GenState × Except Unit Unit :=
  if inj.failFromPretrained then (s, .error ()) else
  let s1 := { s with pipe := some ⟨m, false, false⟩ }
  if inj.failTo then (s1, .error ()) else
  let s2 := { s1 with pipe := some ⟨m, true, false⟩ }
  if s2.device = some Device.cuda then
    if inj.failOffload then (s2, .error ())
    else ({ s2 with pipe := some ⟨m, true, true⟩, currentModel := some m }, .ok ())
  else
    ({ s2 with currentModel := some m }, .ok ())

/-- `Generator._load_sdxl` (lines 58-76). -/
def load_sdxl (s : GenState) (inj : LoadInj) : GenState × Except Unit Unit :=
  load_pipeline ModelType.sdxl s inj

/-- `Generator._load_flux` (lines 78-94). -/
def load_flux (s : GenState) (inj : LoadInj) : GenState × Except Unit Unit :=
  load_pipeline ModelType.flux s inj

/-- `Generator._load_flux2` (lines 96-112). -/
def load_flux2 (s : GenState) (inj : LoadInj) : GenState × Except Unit Unit :=
  load_pipeline ModelType.flux2 s inj

/-- `Generator._load_zimage_turbo` (lines 114-131). -/
def load_zimage_turbo (s : GenState) (inj : LoadInj) : GenState × Except Unit Unit :=
  load_pipeline ModelType.zimageTurbo s inj

/-- The `if model == ... elif ...` dispatch of `_ensure_model`
(lines 148-155). -/
def load_dispatch (m : ModelType) (s : GenState) (inj : LoadInj) :
    GenState × Except Unit Unit :=
  match m with
  | .sdxl => load_sdxl s inj
  | .flux => load_flux s inj
  | .flux2 => load_flux2 s inj
  | .zimageTurbo => load_zimage_turbo s inj

/-- `Generator._ensure_model` (lines 133-157), executed under `_lock`:
set the device, return early if the requested model is already current,
otherwise unload the current model (if any) and then load the requested
one. Returns the final instance state, the call's outcome, and the
observable event trace. -/
def ensure_model (s0 : GenState) (d : Device) (m : ModelType) (inj : LoadInj) :
    GenState × Except Unit Unit × List GEvent :=
  let s := ensure_device s0 d
  if s.currentModel = some m then (s, .ok (), [])
  else
    let u := if s.currentModel ≠ none then unload_current s else (s, [])
    let l := load_dispatch m u.1 inj
    (l.1, l.2, u.2 ++ [GEvent.loadStarted m] ++
      (match l.2 with | .ok _ => [GEvent.loaded m] | .error _ => []))

/-- `Generator.get_loaded_model` (lines 273-275). -/
def get_loaded_model (s : GenState) : Option ModelType := s.currentModel

/-- Reachable-state well-formedness: whenever a model is recorded as
current, the held pipe handle is that model's, fully moved to the device.
Every state the code can reach satisfies this (loads set `_pipe` before
`_current_model`; `_unload_current` clears both together; see
`ensure_model_preserves_WF`). -/
def WF (s : GenState) : Prop :=
  ∀ v, s.currentModel = some v →
    ∃ p, s.pipe = some p ∧ p.model = v ∧ p.onDevice = true

theorem ensure_device_currentModel (s : GenState) (d : Device) :
    (ensure_device s d).currentModel = s.currentModel := by
  cases h : s.device <;> simp [ensure_device, h]

theorem ensure_device_pipe (s : GenState) (d : Device) :
    (ensure_device s d).pipe = s.pipe := by
  cases h : s.device <;> simp [ensure_device, h]

theorem load_dispatch_eq (m : ModelType) (s : GenState) (inj : LoadInj) :
    load_dispatch m s inj = load_pipeline m s inj := by
  cases m <;> rfl

theorem load_pipeline_ok (m : ModelType) (s : GenState) (inj : LoadInj)
    (h : (load_pipeline m s inj).2 = .ok ()) :
    (load_pipeline m s inj).1.currentModel = some m ∧
    ∃ p, (load_pipeline m s inj).1.pipe = some p ∧ p.model = m ∧ p.onDevice = true := by
  unfold load_pipeline at h ⊢
  by_cases h1 : inj.failFromPretrained <;> by_cases h2 : inj.failTo <;>
    by_cases h3 : inj.failOffload <;> by_cases hd : s.device = some Device.cuda <;>
    simp_all

theorem load_pipeline_err (m : ModelType) (s : GenState) (inj : LoadInj)
    (h : (load_pipeline m s inj).2 = .error ()) :
    (load_pipeline m s inj).1.currentModel = s.currentModel := by
  unfold load_pipeline at h ⊢
  by_cases h1 : inj.failFromPretrained <;> by_cases h2 : inj.failTo <;>
    by_cases h3 : inj.failOffload <;> by_cases hd : s.device = some Device.cuda <;>
    simp_all

theorem ensure_model_already (s0 : GenState) (d : Device) (m : ModelType) (inj : LoadInj)
    (h : (ensure_device s0 d).currentModel = some m) :
    ensure_model s0 d m inj = (ensure_device s0 d, Except.ok (), []) := by
  simp [ensure_model, h]

theorem ensure_model_fresh (s0 : GenState) (d : Device) (m : ModelType) (inj : LoadInj)
    (h : (ensure_device s0 d).currentModel = none) :
    ensure_model s0 d m inj =
      ((load_pipeline m (ensure_device s0 d) inj).1,
       (load_pipeline m (ensure_device s0 d) inj).2,
       GEvent.loadStarted m ::
         (match (load_pipeline m (ensure_device s0 d) inj).2 with
          | .ok _ => [GEvent.loaded m]
          | .error _ => [])) := by
  simp [ensure_model, h, load_dispatch_eq]

theorem ensure_model_swap_eq (s0 : GenState) (d : Device) (m v : ModelType) (inj : LoadInj)
    (p : Pipe)
    (hv : (ensure_device s0 d).currentModel = some v) (hne : v ≠ m)
    (hp : (ensure_device s0 d).pipe = some p) :
    ensure_model s0 d m inj =
      ((load_pipeline m (unload_current (ensure_device s0 d)).1 inj).1,
       (load_pipeline m (unload_current (ensure_device s0 d)).1 inj).2,
       GEvent.unloaded (some v) :: GEvent.loadStarted m ::
         (match (load_pipeline m (unload_current (ensure_device s0 d)).1 inj).2 with
          | .ok _ => [GEvent.loaded m]
          | .error _ => [])) := by
  simp [ensure_model, hv, hne, unload_current, hp, load_dispatch_eq]

theorem unload_current_state_of_pipe (s : GenState) (p : Pipe) (hp : s.pipe = some p) :
    (unload_current s).1.currentModel = none ∧ (unload_current s).1.pipe = none := by
  simp [unload_current, hp]

/-- C2: every successful `_ensure_model(v)` call ends with the resident
model being exactly `v` (`get_loaded_model() == v`), and when a different
variant was resident at the start, the observable trace is: that variant
unloaded (handle dropped, caches cleared), strictly before the load of
`v` begins, all within the call. -/
theorem c2_ensure_model_success_swaps (s : GenState) (d : Device) (m : ModelType)
    (inj : LoadInj) (hwf : WF s)
    (hok : (ensure_model s d m inj).2.1 = Except.ok ()) :
    get_loaded_model (ensure_model s d m inj).1 = some m ∧
    ∀ v, s.currentModel = some v → v ≠ m →
      (ensure_model s d m inj).2.2 =
        [GEvent.unloaded (some v), GEvent.loadStarted m, GEvent.loaded m] := by
  have hcm := ensure_device_currentModel s d
  have hpm := ensure_device_pipe s d
  cases hcase : (ensure_device s d).currentModel with
  | none =>
      have heq := ensure_model_fresh s d m inj hcase
      rw [heq] at hok ⊢
      simp only at hok
      constructor
      · have h := (load_pipeline_ok m _ inj hok).1
        simpa [get_loaded_model] using h
      · intro v hv hne
        rw [hcm] at hcase
        rw [hv] at hcase
        simp at hcase
  | some v0 =>
      by_cases hvm : v0 = m
      · have hcase' : (ensure_device s d).currentModel = some m := by
          rw [hcase, hvm]
        have heq := ensure_model_already s d m inj hcase'
        rw [heq] at hok ⊢
        constructor
        · simpa [get_loaded_model] using hcase'
        · intro v hv hne
          rw [hcm, hv] at hcase
          exact absurd ((Option.some_inj.mp hcase).trans hvm) hne
      · have hv0 : s.currentModel = some v0 := by rw [← hcm]; exact hcase
        obtain ⟨p, hp, _, _⟩ := hwf v0 hv0
        have hp' : (ensure_device s d).pipe = some p := by rw [hpm]; exact hp
        have heq := ensure_model_swap_eq s d m v0 inj p hcase hvm hp'
        rw [heq] at hok ⊢
        simp only at hok
        constructor
        · have h := (load_pipeline_ok m _ inj hok).1
          simpa [get_loaded_model] using h
        · intro v hv hne
          have hvv0 : v = v0 := by
            rw [hv0] at hv
            exact (Option.some_inj.mp hv).symm
          subst hvv0
          simp [hok]

/-- Witness for C2: with SDXL resident (on-device handle held), a
successful `_ensure_model(flux)` leaves flux resident, and the trace
shows SDXL unloaded strictly before the flux load begins. -/
theorem c2_ensure_model_success_swaps_witness :
    WF ⟨some ModelType.sdxl, some ⟨ModelType.sdxl, true, true⟩, some Device.cuda⟩ ∧
    (ensure_model ⟨some ModelType.sdxl, some ⟨ModelType.sdxl, true, true⟩, some Device.cuda⟩
      Device.cuda ModelType.flux noFail).2.1 = Except.ok () ∧
    get_loaded_model (ensure_model
      ⟨some ModelType.sdxl, some ⟨ModelType.sdxl, true, true⟩, some Device.cuda⟩
      Device.cuda ModelType.flux noFail).1 = some ModelType.flux ∧
    (ensure_model ⟨some ModelType.sdxl, some ⟨ModelType.sdxl, true, true⟩, some Device.cuda⟩
      Device.cuda ModelType.flux noFail).2.2 =
      [GEvent.unloaded (some ModelType.sdxl), GEvent.loadStarted ModelType.flux,
       GEvent.loaded ModelType.flux] := by
  refine ⟨?_, rfl, ?_, ?_⟩
  · intro v hv
    exact ⟨⟨ModelType.sdxl, true, true⟩, rfl, by cases hv; rfl, rfl⟩
  · exact (c2_ensure_model_success_swaps
      ⟨some ModelType.sdxl, some ⟨ModelType.sdxl, true, true⟩, some Device.cuda⟩
      Device.cuda ModelType.flux noFail
      (fun v hv => ⟨⟨ModelType.sdxl, true, true⟩, rfl, by cases hv; rfl, rfl⟩) rfl).1
  · exact (c2_ensure_model_success_swaps
      ⟨some ModelType.sdxl, some ⟨ModelType.sdxl, true, true⟩, some Device.cuda⟩
      Device.cuda ModelType.flux noFail
      (fun v hv => ⟨⟨ModelType.sdxl, true, true⟩, rfl, by cases hv; rfl, rfl⟩) rfl).2
      ModelType.sdxl rfl (by decide)

/-- C6 fails as stated: starting from a fresh manager, `_ensure_model(sdxl)`
with the `.to(device)` step raising leaves the manager in a partial state —
a pipeline handle is present (`_pipe` set by the completed
`from_pretrained` assignment) while no variant is recorded
(`_current_model` is `None`) — neither fully Unloaded nor fully
Resident. -/
theorem c6_counterexample :
    (ensure_model genInit Device.cuda ModelType.sdxl ⟨false, true, false⟩).2.1
        = Except.error () ∧
    (ensure_model genInit Device.cuda ModelType.sdxl ⟨false, true, false⟩).1.pipe
        = some ⟨ModelType.sdxl, false, false⟩ ∧
    (ensure_model genInit Device.cuda ModelType.sdxl ⟨false, true, false⟩).1.currentModel
        = none :=
  ⟨rfl, rfl, rfl⟩

/-- Loading from a state with no recorded variant yields a well-formed
state: on success the new pipe matches the newly recorded model; on
failure no variant is recorded, so well-formedness is vacuous. -/
theorem load_pipeline_WF_of_none (m : ModelType) (s : GenState) (inj : LoadInj)
    (hs : s.currentModel = none) : WF (load_pipeline m s inj).1 := by
  intro v hv
  cases hr : (load_pipeline m s inj).2 with
  | ok u =>
      obtain ⟨h1, h2⟩ := load_pipeline_ok m s inj (by rw [hr])
      rw [h1] at hv
      obtain rfl : m = v := Option.some_inj.mp hv
      exact h2
  | error e =>
      have herr := load_pipeline_err m s inj (by rw [hr])
      rw [herr, hs] at hv
      cases hv

/-- `_ensure_model` preserves well-formedness, so the `WF` hypothesis of
the residency theorems holds in every reachable state. -/
theorem ensure_model_preserves_WF (s : GenState) (d : Device) (m : ModelType)
    (inj : LoadInj) (hwf : WF s) : WF (ensure_model s d m inj).1 := by
  have hcm := ensure_device_currentModel s d
  have hpm := ensure_device_pipe s d
  cases hcase : (ensure_device s d).currentModel with
  | none =>
      have heq := ensure_model_fresh s d m inj hcase
      rw [heq]
      exact load_pipeline_WF_of_none m _ inj hcase
  | some v0 =>
      by_cases hvm : v0 = m
      · have hcase' : (ensure_device s d).currentModel = some m := by
          rw [hcase, hvm]
        have heq := ensure_model_already s d m inj hcase'
        rw [heq]
        intro v hv
        simp only at hv
        rw [hcm] at hv
        obtain ⟨p, hp, hpm', hpd⟩ := hwf v hv
        exact ⟨p, by rw [hpm]; exact hp, hpm', hpd⟩
      · obtain ⟨p, hp, _, _⟩ := hwf v0 (by rw [← hcm]; exact hcase)
        have hp' : (ensure_device s d).pipe = some p := by rw [hpm]; exact hp
        have heq := ensure_model_swap_eq s d m v0 inj p hcase hvm hp'
        rw [heq]
        exact load_pipeline_WF_of_none m _ inj
          (unload_current_state_of_pipe (ensure_device s d) p hp').1

/-- The fresh manager is well-formed. -/
theorem genInit_WF : WF genInit := fun v hv => by cases hv

/-- C6 amended: on success `_ensure_model(m)` leaves the manager fully
Resident — `m` recorded with a matching on-device handle. On failure no
variant is recorded (stale variants never survive), but the state need
not be fully Unloaded: a partially constructed handle may remain with no
recorded variant (see the counterexample), since no cleanup runs on a
failed load. -/
theorem c6_amended_terminal_states (s : GenState) (d : Device) (m : ModelType)
    (inj : LoadInj) (hwf : WF s) :
    ((ensure_model s d m inj).2.1 = Except.ok () →
      get_loaded_model (ensure_model s d m inj).1 = some m ∧
      ∃ p, (ensure_model s d m inj).1.pipe = some p ∧ p.model = m ∧ p.onDevice = true) ∧
    ((ensure_model s d m inj).2.1 = Except.error () →
      get_loaded_model (ensure_model s d m inj).1 = none) := by
  have hcm := ensure_device_currentModel s d
  have hpm := ensure_device_pipe s d
  cases hcase : (ensure_device s d).currentModel with
  | none =>
      have heq := ensure_model_fresh s d m inj hcase
      rw [heq]
      constructor
      · intro hok
        simp only at hok
        obtain ⟨h1, h2⟩ := load_pipeline_ok m _ inj hok
        exact ⟨by simpa [get_loaded_model] using h1, h2⟩
      · intro herr
        simp only at herr
        have h := load_pipeline_err m _ inj herr
        simp [get_loaded_model, h, hcase]
  | some v0 =>
      by_cases hvm : v0 = m
      · have hcase' : (ensure_device s d).currentModel = some m := by
          rw [hcase, hvm]
        have heq := ensure_model_already s d m inj hcase'
        rw [heq]
        constructor
        · intro _
          refine ⟨by simpa [get_loaded_model] using hcase', ?_⟩
          obtain ⟨p, hp, hpm', hpd⟩ := hwf m (by rw [← hcm]; exact hcase')
          exact ⟨p, by simpa [hpm] using hp, hpm', hpd⟩
        · intro herr
          simp at herr
      · obtain ⟨p, hp, _, _⟩ := hwf v0 (by rw [← hcm]; exact hcase)
        have hp' : (ensure_device s d).pipe = some p := by rw [hpm]; exact hp
        have heq := ensure_model_swap_eq s d m v0 inj p hcase hvm hp'
        rw [heq]
        constructor
        · intro hok
          simp only at hok
          obtain ⟨h1, h2⟩ := load_pipeline_ok m _ inj hok
          exact ⟨by simpa [get_loaded_model] using h1, h2⟩
        · intro herr
          simp only at herr
          have h := load_pipeline_err m _ inj herr
          have hu := unload_current_state_of_pipe (ensure_device s d) p hp'
          simp [get_loaded_model, h, hu.1]

/-- Witness for C6 amended: a fresh manager successfully loading SDXL
ends fully Resident, and the same request with `.to(device)` failing ends
with no recorded variant. -/
theorem c6_amended_terminal_states_witness :
    WF genInit ∧
    ((ensure_model genInit Device.cuda ModelType.sdxl noFail).2.1 = Except.ok () →
      get_loaded_model (ensure_model genInit Device.cuda ModelType.sdxl noFail).1
          = some ModelType.sdxl ∧
      ∃ p, (ensure_model genInit Device.cuda ModelType.sdxl noFail).1.pipe = some p ∧
        p.model = ModelType.sdxl ∧ p.onDevice = true) ∧
    ((ensure_model genInit Device.cuda ModelType.sdxl ⟨false, true, false⟩).2.1
        = Except.error () →
      get_loaded_model
        (ensure_model genInit Device.cuda ModelType.sdxl ⟨false, true, false⟩).1 = none) :=
  ⟨(fun v hv => by cases hv),
   (c6_amended_terminal_states genInit Device.cuda ModelType.sdxl noFail
     (fun v hv => by cases hv)).1,
   (c6_amended_terminal_states genInit Device.cuda ModelType.sdxl ⟨false, true, false⟩
     (fun v hv => by cases hv)).2⟩

end Generator

namespace Capabilities

/-- Capability records (`capabilities.py` lines 22-44). VRAM readings are
modeled as exact rationals; the tiering logic only compares them against
integer thresholds. -/
inductive Capability
  | upscale (model : String) (scale : Nat)
  | image (model : String)
  | caption (model : String)
deriving DecidableEq, Repr

/-- `CapabilitiesResponse` (`capabilities.py` lines 47-52). -/
structure CapabilitiesResponse where
  capabilities : List Capability
  device : Device
  gpu_memory_gb : ℚ
deriving DecidableEq, Repr

/-- Python's `round(mem, 1)`: round to the nearest tenth. (Python uses
round-half-to-even on the float; the difference can only show on exact
multiples of 0.05 and affects no tiering decision.) -/
def roundTenth (q : ℚ) : ℚ := (round (10 * q) : ℤ) / 10

/-- The fixed CPU-mode capability list (`capabilities.py` lines 86-93). -/
def cpuCapabilities : List Capability :=
  [.upscale "realesrgan-x2plus" 2, .upscale "realesrgan-x4plus" 4,
   .image "sdxl", .caption "blip2", .caption "florence2-base"]

/-- The GPU-mode tier table (`capabilities.py` lines 100-111): each
threshold appends its capabilities to the accumulating list. -/
def cudaCapabilities (mem : ℚ) : List Capability :=
  (if 4 ≤ mem then
     [.upscale "realesrgan-x2plus" 2, .caption "blip2", .caption "florence2-base"]
   else []) ++
  (if 6 ≤ mem then [.upscale "realesrgan-x4plus" 4, .caption "florence2-large"] else []) ++
  (if 8 ≤ mem then [.image "sdxl"] else []) ++
  (if 12 ≤ mem then [.image "flux"] else [])

/-- `get_capabilities` (`capabilities.py` lines 78-117), as a pure
function of the detected memory and device. -/
def get_capabilities (mem : ℚ) (device : Device) : CapabilitiesResponse :=
  match device with
  | .cpu => ⟨cpuCapabilities, .cpu, 0⟩
  | .cuda => ⟨cudaCapabilities mem, .cuda, roundTenth mem⟩

/-- The kwargs match of `has_capability("upscale", model=…, scale=…)`
(`capabilities.py` lines 120-128): same kind, and every supplied keyword
equal on the record. -/
def capMatchesUpscale (model : String) (scale : Nat) : Capability → Bool
  | .upscale m s => m == model && s == scale
  | _ => false

/-- The kwargs match of `has_capability("image", model=…)`. -/
def capMatchesImage (model : String) : Capability → Bool
  | .image m => m == model
  | _ => false

/-- The kwargs match of `has_capability("caption", model=…)`. -/
def capMatchesCaption (model : String) : Capability → Bool
  | .caption m => m == model
  | _ => false

def has_capability_upscale (mem : ℚ) (device : Device) (model : String) (scale : Nat) : Bool :=
  (get_capabilities mem device).capabilities.any (capMatchesUpscale model scale)

def has_capability_image (mem : ℚ) (device : Device) (model : String) : Bool :=
  (get_capabilities mem device).capabilities.any (capMatchesImage model)

def has_capability_caption (mem : ℚ) (device : Device) (model : String) : Bool :=
  (get_capabilities mem device).capabilities.any (capMatchesCaption model)

/-- Payload of the `ValueError` a `require_*` check raises: the data
interpolated into its message — the requested operation and parameters,
and the current device and VRAM reading. -/
structure CapError where
  operation : String
  model : String
  scale : Option Nat
  device : Device
  gpu_memory_gb : ℚ
deriving DecidableEq, Repr

/-- `require_upscale` (`capabilities.py` lines 131-140). The Python
default for `model` is `"realesrgan-x4plus"`; for `scale == 2` the model
is first rewritten to `"realesrgan-x2plus"`. -/
def require_upscale (mem : ℚ) (device : Device) (scale : Nat) (model : String) :
    Except CapError Unit :=
  let model := if scale = 2 then "realesrgan-x2plus" else model
  if has_capability_upscale mem device model scale then .ok ()
  else .error ⟨"upscale", model, some scale,
    (get_capabilities mem device).device, (get_capabilities mem device).gpu_memory_gb⟩

/-- `require_generate` (`capabilities.py` lines 143-150). -/
def require_generate (mem : ℚ) (device : Device) (model : String) : Except CapError Unit :=
  if has_capability_image mem device model then .ok ()
  else .error ⟨"image generation", model, none,
    (get_capabilities mem device).device, (get_capabilities mem device).gpu_memory_gb⟩

/-- `require_caption` (`capabilities.py` lines 153-160). -/
def require_caption (mem : ℚ) (device : Device) (model : String) : Except CapError Unit :=
  if has_capability_caption mem device model then .ok ()
  else .error ⟨"caption", model, none,
    (get_capabilities mem device).device, (get_capabilities mem device).gpu_memory_gb⟩

theorem ite_nil_sublist {α : Type} {p q : Prop} [Decidable p] [Decidable q]
    (l : List α) (h : p → q) :
    (if p then l else []).Sublist (if q then l else []) := by
  split_ifs with h1 h2
  · exact List.Sublist.refl l
  · exact absurd (h h1) h2
  · exact List.nil_sublist l
  · exact List.Sublist.refl []

theorem cudaCapabilities_sublist (m1 m2 : ℚ) (h : m1 ≤ m2) :
    (cudaCapabilities m1).Sublist (cudaCapabilities m2) := by
  unfold cudaCapabilities
  refine List.Sublist.append (List.Sublist.append (List.Sublist.append ?_ ?_) ?_) ?_
  all_goals exact ite_nil_sublist _ (fun hh => le_trans hh h)

/-- C7: capability tiering is monotone on an accelerated device — for
memory values `m1 < m2`, every capability granted at `m1` is also granted
at `m2` (higher tiers only add capabilities). -/
theorem c7_capabilities_monotone (m1 m2 : ℚ) (h : m1 < m2) :
    ∀ c, c ∈ (get_capabilities m1 Device.cuda).capabilities →
      c ∈ (get_capabilities m2 Device.cuda).capabilities := by
  intro c hc
  exact (cudaCapabilities_sublist m1 m2 (le_of_lt h)).subset hc

/-- Witness for C7 at concrete memories 5 < 9: the 2x upscale capability
present at 5 GB is still present at 9 GB. -/
theorem c7_capabilities_monotone_witness :
    (5 : ℚ) < 9 ∧
    Capability.upscale "realesrgan-x2plus" 2 ∈ (get_capabilities 5 Device.cuda).capabilities ∧
    Capability.upscale "realesrgan-x2plus" 2 ∈ (get_capabilities 9 Device.cuda).capabilities := by
  refine ⟨by norm_num, ?_, ?_⟩
  · show Capability.upscale "realesrgan-x2plus" 2 ∈ cudaCapabilities 5
    simp [cudaCapabilities]
    norm_num
  · exact c7_capabilities_monotone 5 9 (by norm_num) _ (by
      show Capability.upscale "realesrgan-x2plus" 2 ∈ cudaCapabilities 5
      simp [cudaCapabilities]
      norm_num)

theorem has_capability_upscale_iff (mem : ℚ) (device : Device) (model : String) (scale : Nat) :
    has_capability_upscale mem device model scale = true ↔
      Capability.upscale model scale ∈ (get_capabilities mem device).capabilities := by
  unfold has_capability_upscale
  rw [List.any_eq_true]
  constructor
  · rintro ⟨c, hc, hm⟩
    cases c with
    | upscale m s =>
        simp [capMatchesUpscale] at hm
        obtain ⟨rfl, rfl⟩ := hm
        exact hc
    | image m => simp [capMatchesUpscale] at hm
    | caption m => simp [capMatchesUpscale] at hm
  · intro hc
    exact ⟨_, hc, by simp [capMatchesUpscale]⟩

theorem has_capability_image_iff (mem : ℚ) (device : Device) (model : String) :
    has_capability_image mem device model = true ↔
      Capability.image model ∈ (get_capabilities mem device).capabilities := by
  unfold has_capability_image
  rw [List.any_eq_true]
  constructor
  · rintro ⟨c, hc, hm⟩
    cases c with
    | upscale m s => simp [capMatchesImage] at hm
    | image m =>
        simp [capMatchesImage] at hm
        subst hm
        exact hc
    | caption m => simp [capMatchesImage] at hm
  · intro hc
    exact ⟨_, hc, by simp [capMatchesImage]⟩

theorem has_capability_caption_iff (mem : ℚ) (device : Device) (model : String) :
    has_capability_caption mem device model = true ↔
      Capability.caption model ∈ (get_capabilities mem device).capabilities := by
  unfold has_capability_caption
  rw [List.any_eq_true]
  constructor
  · rintro ⟨c, hc, hm⟩
    cases c with
    | upscale m s => simp [capMatchesCaption] at hm
    | image m => simp [capMatchesCaption] at hm
    | caption m =>
        simp [capMatchesCaption] at hm
        subst hm
        exact hc
  · intro hc
    exact ⟨_, hc, by simp [capMatchesCaption]⟩

/-- C8: each `require_*` check raises exactly when the detected capability
set contains no record equal to the requested kind and parameters (with
`require_upscale` first normalizing the model name for scale 2, as the
code does), and the raised error names the requested operation and the
current device and memory — it is an error value built from
`get_capabilities`, not a crash. -/
theorem c8_require_iff_no_exact_match (mem : ℚ) (device : Device) (scale : Nat)
    (model mImg mCap : String) :
    ((∃ e, require_upscale mem device scale model = Except.error e) ↔
      Capability.upscale (if scale = 2 then "realesrgan-x2plus" else model) scale ∉
        (get_capabilities mem device).capabilities) ∧
    (∀ e, require_upscale mem device scale model = Except.error e →
      e.operation = "upscale" ∧ e.device = (get_capabilities mem device).device ∧
      e.gpu_memory_gb = (get_capabilities mem device).gpu_memory_gb) ∧
    ((∃ e, require_generate mem device mImg = Except.error e) ↔
      Capability.image mImg ∉ (get_capabilities mem device).capabilities) ∧
    (∀ e, require_generate mem device mImg = Except.error e →
      e.operation = "image generation" ∧ e.device = (get_capabilities mem device).device ∧
      e.gpu_memory_gb = (get_capabilities mem device).gpu_memory_gb) ∧
    ((∃ e, require_caption mem device mCap = Except.error e) ↔
      Capability.caption mCap ∉ (get_capabilities mem device).capabilities) ∧
    (∀ e, require_caption mem device mCap = Except.error e →
      e.operation = "caption" ∧ e.device = (get_capabilities mem device).device ∧
      e.gpu_memory_gb = (get_capabilities mem device).gpu_memory_gb) := by
  refine ⟨?_, ?_, ?_, ?_, ?_, ?_⟩
  · by_cases hb : has_capability_upscale mem device
        (if scale = 2 then "realesrgan-x2plus" else model) scale = true
    · rw [← has_capability_upscale_iff]
      simp [require_upscale, hb]
    · rw [← has_capability_upscale_iff]
      simp [require_upscale, hb]
  · intro e he
    by_cases hb : has_capability_upscale mem device
        (if scale = 2 then "realesrgan-x2plus" else model) scale = true
    · simp [require_upscale, hb] at he
    · simp [require_upscale, hb] at he
      rw [← he]
      exact ⟨rfl, rfl, rfl⟩
  · by_cases hb : has_capability_image mem device mImg = true
    · rw [← has_capability_image_iff]
      simp [require_generate, hb]
    · rw [← has_capability_image_iff]
      simp [require_generate, hb]
  · intro e he
    by_cases hb : has_capability_image mem device mImg = true
    · simp [require_generate, hb] at he
    · simp [require_generate, hb] at he
      rw [← he]
      exact ⟨rfl, rfl, rfl⟩
  · by_cases hb : has_capability_caption mem device mCap = true
    · rw [← has_capability_caption_iff]
      simp [require_caption, hb]
    · rw [← has_capability_caption_iff]
      simp [require_caption, hb]
  · intro e he
    by_cases hb : has_capability_caption mem device mCap = true
    · simp [require_caption, hb] at he
    · simp [require_caption, hb] at he
      rw [← he]
      exact ⟨rfl, rfl, rfl⟩

/-- Witness for C8: on CPU, generation with flux is not listed, the check
returns the descriptive error, and that error names the operation and the
current device and memory. -/
theorem c8_require_iff_no_exact_match_witness :
    require_generate 0 Device.cpu "flux" =
        Except.error ⟨"image generation", "flux", none, Device.cpu, 0⟩ ∧
    (CapError.operation ⟨"image generation", "flux", none, Device.cpu, 0⟩
        = "image generation" ∧
     CapError.device ⟨"image generation", "flux", none, Device.cpu, 0⟩
        = (get_capabilities 0 Device.cpu).device ∧
     CapError.gpu_memory_gb ⟨"image generation", "flux", none, Device.cpu, 0⟩
        = (get_capabilities 0 Device.cpu).gpu_memory_gb) :=
  ⟨rfl,
   (c8_require_iff_no_exact_match 0 Device.cpu 4 "realesrgan-x4plus" "flux" "blip2").2.2.2.1
     ⟨"image generation", "flux", none, Device.cpu, 0⟩ rfl⟩

end Capabilities

namespace Upscaler

/-- Python `dict` assignment `d[k] = v`: replace the binding if the key
exists, otherwise append it. -/
def dictSet {α : Type} : List (Nat × α) → Nat → α → List (Nat × α)
  | [], k, v => [(k, v)]
  | (k', v') :: rest, k, v =>
      if k' = k then (k, v) :: rest else (k', v') :: dictSet rest k v

/-- Python `d[k]` / `k in d`: lookup by key. -/
def dictGet {α : Type} : List (Nat × α) → Nat → Option α
  | [], _ => none
  | (k', v') :: rest, k => if k' = k then some v' else dictGet rest k

/-- The `Upscaler` instance fields `_models` (scale → loaded spandrel
module, the handle represented by its model-file tag) and `_device`
(`upscaler.py` lines 24-26). -/
structure UpState where
  models : List (Nat × String)
  device : Option Device
deriving DecidableEq, Repr

/-- `Upscaler.__init__`. -/
def upInit : UpState := ⟨[], none⟩

/-- `Upscaler._load_models` (lines 38-63): for each scale in [2, 4],
load the Real-ESRGAN model and store it under that scale. -/
def load_models (s : UpState) : UpState :=
  { s with models := dictSet (dictSet s.models 2 "RealESRGAN_x2plus") 4 "RealESRGAN_x4plus" }

/-- `Upscaler.load` (lines 28-36): record the device and load both
models. -/
def load (s : UpState) (d : Device) : UpState :=
  load_models { s with device := some d }

/-- The two failure modes of `Upscaler.upscale`: the ValueError for a
scale other than 2/4, and the distinct RuntimeError for a model that was
never preloaded. -/
inductive UpErr
  | valueErrorScale (scale : Nat)
  | runtimeErrorNotLoaded (scale : Nat)
deriving DecidableEq, Repr

/-- `Upscaler.upscale` (lines 65-92) followed by `_upscale_sync`
(lines 94-151). The tensor math is out of scope (spec section 1); the
result records which loaded model handle processed which input. The
instance state is returned to make the frame effect explicit: no branch
writes any field. -/
def upscale (s : UpState) (img : Nat) (scale : Nat) :
    Except UpErr (String × Nat) × UpState :=
  if scale ≠ 2 ∧ scale ≠ 4 then (.error (.valueErrorScale scale), s)
  else
    match dictGet s.models scale with
    | none => (.error (.runtimeErrorNotLoaded scale), s)
    | some h => (.ok (h, img), s)

end Upscaler

namespace Captioner

/-- The `Captioner` instance fields (`captioner.py` lines 27-34): the
BLIP-2 handle, the single Florence handle (tagged by the variant whose
weights it holds), the recorded Florence variant, the device, and the
`_loaded_models` list. -/
structure CaptState where
  blip2Model : Option Unit
  florenceModel : Option String
  florenceVariant : Option String
  device : Option Device
  loadedModels : List String
deriving DecidableEq, Repr

/-- `Captioner.__init__`. -/
def captInit : CaptState := ⟨none, none, none, none, []⟩

/-- One backend model actually instantiated during `load`. -/
inductive CLoadEvent
  | blip2
  | florence (variant : String)
deriving DecidableEq, Repr

def isFlorenceLoad : CLoadEvent → Bool
  | .florence _ => true
  | .blip2 => false

/-- `Captioner._load_blip2` (lines 69-84). -/
def load_blip2 (s : CaptState) : CaptState := { s with blip2Model := some () }

/-- `Captioner._load_florence` (lines 86-104): one Florence model is
instantiated and its variant recorded. -/
def load_florence (s : CaptState) (variant : String) : CaptState :=
  { s with florenceModel := some variant, florenceVariant := some variant }

/-- `Captioner.load` (lines 36-67): load BLIP-2 if requested; load at
most one Florence model, preferring large, and register
`florence2-base` as also available when the large variant is loaded.
Returns the new state and the models actually instantiated. -/
def load (s : CaptState) (d : Device) (models : List String) :
    CaptState × List CLoadEvent :=
  let s1 : CaptState := { s with device := some d }
  let s2 : CaptState :=
    if "blip2" ∈ models then
      { load_blip2 s1 with loadedModels := s1.loadedModels ++ ["blip2"] }
    else s1
  let evs2 : List CLoadEvent := if "blip2" ∈ models then [CLoadEvent.blip2] else []
  let florenceToLoad : Option String :=
    if "florence2-large" ∈ models then some "florence2-large"
    else if "florence2-base" ∈ models then some "florence2-base"
    else none
  match florenceToLoad with
  | some v =>
      let s3 := load_florence s2 v
      if v = "florence2-large" then
        ({ s3 with loadedModels := s3.loadedModels ++ ["florence2-large", "florence2-base"] },
         evs2 ++ [CLoadEvent.florence v])
      else
        ({ s3 with loadedModels := s3.loadedModels ++ ["florence2-base"] },
         evs2 ++ [CLoadEvent.florence v])
  | none => (s2, evs2)

/-- Failure modes of `Captioner.caption`: the distinct RuntimeError for a
model not in `_loaded_models` (with the message's availability list), the
ValueError of `_caption_sync` for an unknown name, and the
AttributeError Python would raise if a backend field were `None`
(unreachable once the residency check passed). -/
inductive CaptErr
  | runtimeNotLoaded (model : String) (available : List String)
  | valueUnknownModel (model : String)
  | attributeCrash
deriving DecidableEq, Repr

/-- `Captioner._caption_sync` (lines 132-142) with `_caption_blip2` /
`_caption_florence`: both Florence variants are served by
`self._florence_model`, whichever variant it holds. The result records
which model instance served which input. -/
def caption_sync (s : CaptState) (img : Nat) (model : String) :
    Except CaptErr (String × Nat) :=
  if model = "blip2" then
    match s.blip2Model with
    | some _ => .ok ("blip2", img)
    | none => .error .attributeCrash
  else if model = "florence2-base" ∨ model = "florence2-large" then
    match s.florenceModel with
    | some h => .ok (h, img)
    | none => .error .attributeCrash
  else .error (.valueUnknownModel model)

/-- `Captioner.caption` (lines 106-130): membership check against
`_loaded_models`, then the synchronous captioning. State returned to make
the frame effect explicit: no branch writes any field. -/
def caption (s : CaptState) (img : Nat) (model : String) :
    Except CaptErr (String × Nat) × CaptState :=
  if model ∉ s.loadedModels then (.error (.runtimeNotLoaded model s.loadedModels), s)
  else (caption_sync s img model, s)

end Captioner

/-- C9: the non-swappable families never evict. `upscale` and `caption`
never write instance state, so after the startup loads every call leaves
the loaded-model sets unchanged; with both upscale models preloaded the
scale-2 and scale-4 models each run (in any order, both staying
resident); requesting a variant that was never preloaded fails with the
distinct RuntimeError, again leaving state untouched — no load, no
eviction. -/
theorem c9_non_swappable_never_evict :
    (∀ s img scale, (Upscaler.upscale s img scale).2 = s) ∧
    (∀ s img model, (Captioner.caption s img model).2 = s) ∧
    (∀ d img img2,
      (Upscaler.upscale (Upscaler.load Upscaler.upInit d) img 2).1
          = Except.ok ("RealESRGAN_x2plus", img) ∧
      (Upscaler.upscale (Upscaler.load Upscaler.upInit d) img2 4).1
          = Except.ok ("RealESRGAN_x4plus", img2)) ∧
    (∀ d img,
      Captioner.caption (Captioner.load Captioner.captInit d ["blip2"]).1 img
          "florence2-large"
        = (Except.error (Captioner.CaptErr.runtimeNotLoaded "florence2-large" ["blip2"]),
           (Captioner.load Captioner.captInit d ["blip2"]).1)) := by
  refine ⟨?_, ?_, ?_, ?_⟩
  · intro s img scale
    unfold Upscaler.upscale
    split_ifs
    · rfl
    · cases hg : Upscaler.dictGet s.models scale <;> simp [hg]
  · intro s img model
    unfold Captioner.caption
    split_ifs <;> rfl
  · intro d img img2
    exact ⟨rfl, rfl⟩
  · intro d img
    rfl

/-- C10: whenever the startup model list contains `florence2-large`,
`Captioner.load` registers both `florence2-large` and `florence2-base` as
available, instantiates exactly one Florence model (the large variant),
and a subsequent `caption(…, model="florence2-base")` is accepted and
served by that large Florence instance. -/
theorem c10_florence_large_serves_base (d : Device) (models : List String) (img : Nat)
    (h : "florence2-large" ∈ models) :
    "florence2-large" ∈ (Captioner.load Captioner.captInit d models).1.loadedModels ∧
    "florence2-base" ∈ (Captioner.load Captioner.captInit d models).1.loadedModels ∧
    (Captioner.load Captioner.captInit d models).1.florenceModel = some "florence2-large" ∧
    ((Captioner.load Captioner.captInit d models).2.filter Captioner.isFlorenceLoad)
        = [Captioner.CLoadEvent.florence "florence2-large"] ∧
    (Captioner.caption (Captioner.load Captioner.captInit d models).1 img
        "florence2-base").1
      = Except.ok ("florence2-large", img) := by
  by_cases hb : "blip2" ∈ models
  · simp [Captioner.load, Captioner.captInit, h, hb, Captioner.load_blip2,
      Captioner.load_florence, Captioner.isFlorenceLoad, Captioner.caption,
      Captioner.caption_sync]
  · simp [Captioner.load, Captioner.captInit, h, hb, Captioner.load_blip2,
      Captioner.load_florence, Captioner.isFlorenceLoad, Captioner.caption,
      Captioner.caption_sync]

/-- Witness for C10 at the concrete startup list `[florence2-large]`. -/
theorem c10_florence_large_serves_base_witness :
    "florence2-large" ∈ ["florence2-large"] ∧
    ("florence2-large" ∈
        (Captioner.load Captioner.captInit Device.cuda ["florence2-large"]).1.loadedModels ∧
     "florence2-base" ∈
        (Captioner.load Captioner.captInit Device.cuda ["florence2-large"]).1.loadedModels ∧
     (Captioner.load Captioner.captInit Device.cuda ["florence2-large"]).1.florenceModel
        = some "florence2-large" ∧
     ((Captioner.load Captioner.captInit Device.cuda ["florence2-large"]).2.filter
        Captioner.isFlorenceLoad)
        = [Captioner.CLoadEvent.florence "florence2-large"] ∧
     (Captioner.caption (Captioner.load Captioner.captInit Device.cuda
        ["florence2-large"]).1 0 "florence2-base").1
        = Except.ok ("florence2-large", 0)) :=
  ⟨by decide,
   c10_florence_large_serves_base Device.cuda ["florence2-large"] 0 (by decide)⟩
